import Mathlib

/-!
# Verification of the wrongler YOLO-mode watch/deploy loop

Shallow embedding of the scheduler in `src/yolo/watch.ts` (`startYoloMode`:
`performDeploy`, `debouncedDeploy`, the chokidar `change` handler), the
debounce utility in `src/utils/debounce.ts`, the presentation logic in
`src/yolo/output-formatter.ts` (`formatDeployStart`, `constructVersionUrl`,
`formatStats`), and the cache accessors in `src/cache.ts`.

The TypeScript program runs on a single-threaded event loop.  `performDeploy`
is an `async` function whose body up to `await deploy(...)` runs atomically,
and whose continuation (the `try`/`catch`/`finally` tail) runs atomically when
the deploy settles.  We therefore model the scheduler as a state machine whose
atomic events are:
  * `Ev.request`   — a `performDeploy()` invocation (debounce firing, the
                     `r` key handler, or the initial deploy);
  * `Ev.complete`  — the awaited `deploy(deployParams)` promise settling
                     (successfully or with an error), which runs the tail of
                     `performDeploy`.
-/

namespace Wrongler

/-- The mutable scheduler locals of `startYoloMode` plus the formatter's
`deploymentCount` and the `stats` record (`successful`, `failed`, `totalTime`,
`lastDeployTime`). -/
structure SchedState where
  isDeploying : Bool
  pendingDeploy : Bool
  deploymentCount : Nat
  successful : Nat
  failed : Nat
  totalTime : Nat
  lastDeployTime : Option Nat
deriving Repr, DecidableEq

/-- The state at session start: `isDeploying = false`, `pendingDeploy = false`,
`deploymentCount = 0` (`YoloOutputFormatter` field initializer), stats all
zero, no last deploy time. -/
def initState : SchedState :=
  { isDeploying := false, pendingDeploy := false, deploymentCount := 0,
    successful := 0, failed := 0, totalTime := 0, lastDeployTime := none }

/-- `YoloOutputFormatter.formatDeployStart`: `this.deploymentCount++` happens
unconditionally, before the `if (!this.verbose)` branch, so the counter is
incremented in both verbose and condensed mode. Returns the new counter. -/
def formatDeployStart (verbose : Bool) (deploymentCount : Nat) : Nat :=
  let newCount := deploymentCount + 1
  -- the `if (!verbose) { ... console.log ... }` branch only prints
  let _ := verbose
  newCount

/-- The head of `performDeploy` (watch.ts lines 48–68): if `isDeploying`, set
`pendingDeploy = true` and return (no attempt starts); else set
`isDeploying = true`, clear `pendingDeploy`, and begin an attempt, whose first
act is `formatter.formatDeployStart(...)`, incrementing `deploymentCount`.
The boolean result records whether a new attempt began. -/
def performDeployEntry (verbose : Bool) (s : SchedState) : SchedState × Bool :=
  if s.isDeploying then
    ({ s with pendingDeploy := true }, false)
  else
    ({ s with isDeploying := true, pendingDeploy := false,
              deploymentCount := formatDeployStart verbose s.deploymentCount }, true)

/-- How the `finally` block of `performDeploy` resumes a coalesced request:
watch.ts line 112 calls `void debouncedDeploy();` — a *debounce signal*, not a
direct `performDeploy()` call. -/
inductive FollowUp
  | noFollowUp
  | viaDebounce
deriving Repr, DecidableEq

/-- The tail of `performDeploy` (watch.ts lines 72–114), run when
`await deploy(deployParams)` settles at time `now` after `dur` ms:
on success (`ok = true`) increment `stats.successful`, on failure (the `catch`
block — the error is caught, never rethrown) increment `stats.failed`; in both
branches add the duration to `stats.totalTime` and set `stats.lastDeployTime`;
then the `finally` block clears `isDeploying` and, if `pendingDeploy` is set,
invokes `debouncedDeploy()` (a debounce signal). -/
def performDeployComplete (s : SchedState) (ok : Bool) (dur : Nat) (now : Nat) :
    SchedState × FollowUp :=
  let s1 :=
    if ok then
      { s with successful := s.successful + 1, totalTime := s.totalTime + dur,
               lastDeployTime := some now }
    else
      { s with failed := s.failed + 1, totalTime := s.totalTime + dur,
               lastDeployTime := some now }
  let s2 := { s1 with isDeploying := false }
  (s2, if s.pendingDeploy then FollowUp.viaDebounce else FollowUp.noFollowUp)

/-- Atomic scheduler events processed by the single-threaded event loop. -/
inductive Ev
  | request
  | complete (ok : Bool) (dur : Nat) (now : Nat)
deriving Repr, DecidableEq

/-- One event-loop step. -/
def step (verbose : Bool) (s : SchedState) : Ev → SchedState
  | Ev.request => (performDeployEntry verbose s).1
  | Ev.complete ok dur now => (performDeployComplete s ok dur now).1

/-- Whether processing event `e` in state `s` begins a new deploy attempt
(the body of `performDeploy` past the `isDeploying` guard). -/
def begins (verbose : Bool) (s : SchedState) : Ev → Bool
  | Ev.request => (performDeployEntry verbose s).2
  | Ev.complete _ _ _ => false

/-- Run a list of events. -/
def run (verbose : Bool) (s : SchedState) : List Ev → SchedState
  | [] => s
  | e :: es => run verbose (step verbose s e) es

/-- Number of deploy attempts that begin while processing `es` from `s`. -/
def beginsCount (verbose : Bool) (s : SchedState) : List Ev → Nat
  | [] => 0
  | e :: es => (if begins verbose s e then 1 else 0) + beginsCount verbose (step verbose s e) es

/-! ## The debounce utility (`src/utils/debounce.ts`)

The returned closure clears any pending `setTimeout` and schedules
`func` to run `waitMs` ms later.  For a strictly increasing list of call
times, the pending timeout scheduled at `t1` (to fire at `t1 + waitMs`) is
cleared by a later call at `t2` exactly when `t2` arrives before the timer
expires (`t2 < t1 + waitMs`); otherwise the timer has already fired and
`clearTimeout` is a no-op.  `debounceFires` returns the times at which the
wrapped function actually runs. -/

def debounceFires (waitMs : Nat) : List Nat → List Nat
  | [] => []
  | [t] => [t + waitMs]
  | t1 :: t2 :: rest =>
    if t2 < t1 + waitMs then debounceFires waitMs (t2 :: rest)
    else (t1 + waitMs) :: debounceFires waitMs (t2 :: rest)

/-! ## String primitives

Executable character-list implementations of the JavaScript string
operations the program uses (`split`, `join`, `includes`, URL prefix
tests), so that every definition evaluates by kernel reduction. -/

/-- Whether `pat` is an initial segment of `l`. -/
def leadsWith (pat : List Char) : List Char → Bool
  | l =>
    match pat, l with
    | [], _ => true
    | _ :: _, [] => false
    | x :: xs, y :: ys => x = y && leadsWith xs ys

/-- Whether `needle` occurs as a contiguous substring of the list. -/
def containsSub (needle : List Char) : List Char → Bool
  | [] => needle.isEmpty
  | x :: rest => leadsWith needle (x :: rest) || containsSub needle rest

/-- JavaScript `s.split(c)` for a single-character separator. -/
def splitCharAux (c : Char) : List Char → List Char → List (List Char)
  | [], acc => [acc.reverse]
  | x :: xs, acc =>
    if x = c then acc.reverse :: splitCharAux c xs []
    else splitCharAux c xs (x :: acc)

/-- JavaScript `s.split(c)` on strings. -/
def splitChar (s : String) (c : Char) : List String :=
  (splitCharAux c s.toList []).map String.mk

/-- JavaScript `parts.join(sep)`. -/
def joinWith (sep : String) : List String → String
  | [] => ""
  | [x] => x
  | x :: y :: rest => x ++ sep ++ joinWith sep (y :: rest)

/-- JavaScript `s.startsWith(pat)`. -/
def strStartsWith (s pat : String) : Bool :=
  leadsWith pat.toList s.toList

/-- JavaScript `s.includes(sub)`. -/
def strIncludes (s sub : String) : Bool :=
  containsSub sub.toList s.toList

/-! ## The chokidar `change` handler (watch.ts lines 195–210) -/

/-- Whether the `watcher.on("change")` callback calls
`formatter.formatFileChange`: paths containing `.wrangler` are dropped first
(line 197), then the notification is printed when
`!isDeploying || !options.verbose` (line 203) — i.e. it is suppressed
exactly when a deploy is in flight *and* verbose mode is on. -/
def changeEmitsNotification (filePath : String) (isDeploying verbose : Bool) : Bool :=
  if strIncludes filePath ".wrangler" then false
  else !isDeploying || !verbose

/-! ## `YoloOutputFormatter.constructVersionUrl` (output-formatter.ts 95–114) -/

/-- The two fields of the WHATWG `URL` object the formatter reads. -/
structure ParsedUrl where
  hostname : String
  pathname : String
deriving Repr, DecidableEq

/-- Modelled subset of `new URL(mainUrl)`: accepts `http://`/`https://`
followed by a nonempty hostname and an optional `/`-separated path
(the empty path normalizes to `"/"`).  Any other input makes the constructor
throw, which `constructVersionUrl` catches; we return `none` there. -/
def parseUrl (s : String) : Option ParsedUrl :=
  let afterScheme : Option String :=
    if strStartsWith s "https://" then some (s.drop 8)
    else if strStartsWith s "http://" then some (s.drop 7)
    else none
  match afterScheme with
  | none => none
  | some rest =>
    match splitChar rest '/' with
    | [] => none
    | host :: pathSegs =>
      if host = "" then none
      else some { hostname := host,
                  pathname := if pathSegs = [] then "/"
                              else "/" ++ joinWith "/" pathSegs }

/-- `constructVersionUrl(mainUrl, versionId)`: parse the URL (returning `null`
on a parse failure via the `catch`), split the hostname on `.`; when there are
at least 3 parts and the second-to-last part is `workers`, build
`https://{shortId}-{workerName}.{accountOrDomain}{pathname}` where `shortId`
is the version id up to its first `-`, `workerName` is the first hostname
part, and `accountOrDomain` joins the remaining parts with `.`; otherwise
return `null`. -/
def constructVersionUrl (mainUrl versionId : String) : Option String :=
  match parseUrl mainUrl with
  | none => none
  | some url =>
    let parts := splitChar url.hostname '.'
    if 3 ≤ parts.length ∧ parts.getD (parts.length - 2) "" = "workers" then
      let shortId := (splitChar versionId '-').headD ""
      let workerName := parts.headD ""
      let accountOrDomain := joinWith "." (parts.drop 1)
      some ("https://" ++ shortId ++ "-" ++ workerName ++ "." ++ accountOrDomain
            ++ url.pathname)
    else none

/-! ## `YoloOutputFormatter.formatStats` (output-formatter.ts 148–164) -/

/-- `Number.prototype.toFixed(1)` on a nonnegative value: round to the nearest
tenth (the numeric value the one-decimal rendering displays). -/
def toFixed1 (q : ℚ) : ℚ :=
  (round (q * 10) : ℚ) / 10

/-- The average-time value `formatStats` displays:
`total > 0 ? (stats.totalTime / total / 1000).toFixed(1) : "0.0"`. -/
def formatStatsAvg (successful failed totalTime : Nat) : ℚ :=
  let total := successful + failed
  if 0 < total then toFixed1 ((totalTime : ℚ) / (total : ℚ) / 1000) else 0

/-! ## A session of completed attempts, for the stats arithmetic -/

/-- Run a sequence of deploy attempts to completion from `s`: each item
`(ok, dur)` is one trigger (`performDeploy()` from idle) followed by its
completion after `dur` ms. -/
def runSession (verbose : Bool) (s : SchedState) : List (Bool × Nat) → SchedState
  | [] => s
  | (ok, dur) :: rest =>
    runSession verbose
      (step verbose (step verbose s Ev.request) (Ev.complete ok dur 0)) rest

/-- Number of successful attempts in a session. -/
def succCount (l : List (Bool × Nat)) : Nat :=
  (l.filter (fun o => o.1)).length

/-- Number of failed attempts in a session. -/
def failCount (l : List (Bool × Nat)) : Nat :=
  (l.filter (fun o => !o.1)).length

/-- Total duration of the successful attempts. -/
def succTime (l : List (Bool × Nat)) : Nat :=
  ((l.filter (fun o => o.1)).map (fun o => o.2)).sum

/-- Total duration of the failed attempts. -/
def failTime (l : List (Bool × Nat)) : Nat :=
  ((l.filter (fun o => !o.1)).map (fun o => o.2)).sum

/-! ## The cache accessors (`src/cache.ts`)

A `CacheData` object is a finite string-keyed map (modelled as a function to
`Option String`; unmentioned keys are absent).  The cache file on disk is
`none` when missing, `some none` when present but unparseable
(`JSON.parse` throws, caught), and `some (some c)` when it parses to `c`. -/

def CacheData := String → Option String

/-- The empty object `{}`. -/
def emptyCache : CacheData := fun _ => none

/-- `readCache()`: `{}` when the file does not exist; `{}` when `JSON.parse`
throws; otherwise the parsed contents. -/
def readCache (file : Option (Option CacheData)) : CacheData :=
  match file with
  | none => emptyCache
  | some none => emptyCache
  | some (some c) => c

/-- JavaScript property assignment `obj[k] = v`. -/
def setKey (c : CacheData) (k v : String) : CacheData :=
  fun k2 => if k2 = k then some v else c k2

/-- `setCachedAccountId(accountId)`: read the cache, set only `accountId`,
and write the result back; the written contents are returned. -/
def setCachedAccountId (file : Option (Option CacheData)) (accountId : String) :
    CacheData :=
  let cache := readCache file
  setKey cache "accountId" accountId

/-! ## Helper lemmas about the scheduler -/

lemma step_request_inflight (verbose : Bool) (s : SchedState)
    (h : s.isDeploying = true) :
    step verbose s Ev.request = { s with pendingDeploy := true } := by
  simp [step, performDeployEntry, h]

lemma begins_request_inflight (verbose : Bool) (s : SchedState)
    (h : s.isDeploying = true) :
    begins verbose s Ev.request = false := by
  simp [begins, performDeployEntry, h]

/-- While a deploy attempt is in flight, any sequence of further
`performDeploy()` calls begins no attempt and leaves the attempt in flight. -/
lemma requests_no_begin (verbose : Bool) :
    ∀ (evs : List Ev) (s : SchedState), s.isDeploying = true →
      (∀ e ∈ evs, e = Ev.request) →
      beginsCount verbose s evs = 0 ∧ (run verbose s evs).isDeploying = true := by
  intro evs
  induction evs with
  | nil => intro s h _; exact ⟨rfl, h⟩
  | cons e rest ih =>
    intro s h hall
    have he : e = Ev.request := hall e (List.mem_cons_self e rest)
    subst he
    have hstep := step_request_inflight verbose s h
    have h2 : ({ s with pendingDeploy := true } : SchedState).isDeploying = true := h
    have hrest := ih { s with pendingDeploy := true } h2
      (fun x hx => hall x (List.mem_cons_of_mem _ hx))
    refine ⟨?_, ?_⟩
    · simp [beginsCount, begins_request_inflight verbose s h, hstep, hrest.1]
    · simpa [run, hstep] using hrest.2

/-- A request arriving in flight with `pendingDeploy` already set leaves the
state unchanged, so further requests are absorbed. -/
lemma run_replicate_fix (verbose : Bool) :
    ∀ (k : Nat) (s : SchedState), s.isDeploying = true → s.pendingDeploy = true →
      run verbose s (List.replicate k Ev.request) = s := by
  intro k
  induction k with
  | zero => intro s _ _; rfl
  | succ n ih =>
    intro s h hp
    rw [List.replicate_succ]
    have hstep := step_request_inflight verbose s h
    have habs : ({ s with pendingDeploy := true } : SchedState) = s := by
      cases s
      simp_all
    rw [run, hstep, habs]
    exact ih s h hp

/-- `k ≥ 1` requests during an in-flight attempt produce exactly the state
with `pendingDeploy` set and nothing else changed. -/
lemma run_replicate_inflight (verbose : Bool) (s : SchedState) (k : Nat)
    (h : s.isDeploying = true) (hk : 1 ≤ k) :
    run verbose s (List.replicate k Ev.request) = { s with pendingDeploy := true } := by
  obtain ⟨n, rfl⟩ : ∃ n, k = n + 1 := ⟨k - 1, by omega⟩
  rw [List.replicate_succ, run, step_request_inflight verbose s h]
  exact run_replicate_fix verbose n _ h rfl

/-- One step changes `deploymentCount` by exactly 1 when the event begins an
attempt and by 0 otherwise. -/
lemma step_count (verbose : Bool) (s : SchedState) (e : Ev) :
    (step verbose s e).deploymentCount =
      s.deploymentCount + (if begins verbose s e = true then 1 else 0) := by
  cases e with
  | request =>
    cases h : s.isDeploying with
    | false => simp [step, begins, performDeployEntry, h, formatDeployStart]
    | true => simp [step, begins, performDeployEntry, h]
  | complete ok dur now =>
    cases ok <;> simp [step, begins, performDeployComplete]

/-- `deploymentCount` after a run is the starting count plus the number of
attempts that began, whatever the events were. -/
lemma run_deploymentCount (verbose : Bool) :
    ∀ (evs : List Ev) (s : SchedState),
      (run verbose s evs).deploymentCount =
        s.deploymentCount + beginsCount verbose s evs := by
  intro evs
  induction evs with
  | nil => intro s; simp [run, beginsCount]
  | cons e rest ih =>
    intro s
    simp only [run, beginsCount]
    rw [ih]
    have hstep := step_count verbose s e
    simp only [if_true] at hstep ⊢
    omega

lemma succCount_cons (ok : Bool) (dur : Nat) (rest : List (Bool × Nat)) :
    succCount ((ok, dur) :: rest) = (if ok then 1 else 0) + succCount rest := by
  cases ok <;> simp [succCount, List.filter, Nat.add_comm]

lemma failCount_cons (ok : Bool) (dur : Nat) (rest : List (Bool × Nat)) :
    failCount ((ok, dur) :: rest) = (if ok then 0 else 1) + failCount rest := by
  cases ok <;> simp [failCount, List.filter, Nat.add_comm]

lemma succTime_cons (ok : Bool) (dur : Nat) (rest : List (Bool × Nat)) :
    succTime ((ok, dur) :: rest) = (if ok then dur else 0) + succTime rest := by
  cases ok <;> simp [succTime, List.filter]

lemma failTime_cons (ok : Bool) (dur : Nat) (rest : List (Bool × Nat)) :
    failTime ((ok, dur) :: rest) = (if ok then 0 else dur) + failTime rest := by
  cases ok <;> simp [failTime, List.filter]

lemma succCount_add_failCount :
    ∀ l : List (Bool × Nat), succCount l + failCount l = l.length := by
  intro l
  induction l with
  | nil => rfl
  | cons o rest ih =>
    obtain ⟨ok, dur⟩ := o
    rw [succCount_cons, failCount_cons]
    cases ok <;> simp <;> omega

/-- Cumulative stats of a session run: each `(ok, dur)` attempt adds to
exactly one of `successful`/`failed` and adds its duration to `totalTime`. -/
lemma runSession_stats (verbose : Bool) :
    ∀ (l : List (Bool × Nat)) (s : SchedState), s.isDeploying = false →
      (runSession verbose s l).successful = s.successful + succCount l ∧
      (runSession verbose s l).failed = s.failed + failCount l ∧
      (runSession verbose s l).totalTime = s.totalTime + (succTime l + failTime l) ∧
      (runSession verbose s l).isDeploying = false := by
  intro l
  induction l with
  | nil =>
    intro s h
    simp [runSession, succCount, failCount, succTime, failTime, h]
  | cons o rest ih =>
    intro s h
    obtain ⟨ok, dur⟩ := o
    simp only [runSession]
    have hfields :
        (step verbose (step verbose s Ev.request) (Ev.complete ok dur 0)).successful
          = s.successful + (if ok then 1 else 0) ∧
        (step verbose (step verbose s Ev.request) (Ev.complete ok dur 0)).failed
          = s.failed + (if ok then 0 else 1) ∧
        (step verbose (step verbose s Ev.request) (Ev.complete ok dur 0)).totalTime
          = s.totalTime + dur ∧
        (step verbose (step verbose s Ev.request) (Ev.complete ok dur 0)).isDeploying
          = false := by
      cases ok <;> simp [step, performDeployEntry, performDeployComplete, h]
    have hrest := ih _ hfields.2.2.2
    refine ⟨?_, ?_, ?_, hrest.2.2.2⟩
    · rw [hrest.1, hfields.1, succCount_cons]; omega
    · rw [hrest.2.1, hfields.2.1, failCount_cons]; omega
    · rw [hrest.2.2.1, hfields.2.2.1, succTime_cons, failTime_cons]
      cases ok <;> simp <;> omega

/-- Every debounce firing is `waitMs` after the signal that scheduled it. -/
lemma debounceFires_mem (D : Nat) :
    ∀ (ts : List Nat) (f : Nat), f ∈ debounceFires D ts → ∃ s ∈ ts, f = s + D := by
  intro ts
  induction ts with
  | nil => intro f hf; simp [debounceFires] at hf
  | cons t rest ih =>
    cases rest with
    | nil =>
      intro f hf
      simp only [debounceFires, List.mem_singleton] at hf
      exact ⟨t, List.mem_singleton_self t, hf⟩
    | cons t2 rest2 =>
      intro f hf
      rw [debounceFires] at hf
      split at hf
      · obtain ⟨s, hs, hfs⟩ := ih f hf
        exact ⟨s, List.mem_cons_of_mem _ hs, hfs⟩
      · rcases List.mem_cons.mp hf with h | h
        · exact ⟨t, List.mem_cons_self _ _, h⟩
        · obtain ⟨s, hs, hfs⟩ := ih f h
          exact ⟨s, List.mem_cons_of_mem _ hs, hfs⟩

/-! ## The claims -/

/-- A scheduler state with attempt #1 in flight, used to instantiate the
claim theorems at concrete inputs. -/
def sInFlight : SchedState :=
  { isDeploying := true, pendingDeploy := false, deploymentCount := 1,
    successful := 0, failed := 0, totalTime := 0, lastDeployTime := none }

/-- C1: for every sequence of `k ≥ 1` `performDeploy` calls issued strictly
while `isDeploying` is true, each call only sets `pendingDeploy` and returns
(no attempt begins: the resulting state is exactly the original with
`pendingDeploy := true`, and zero attempts begin during the sequence), and
exactly one additional attempt runs after the in-flight attempt completes,
regardless of `k`: the completion hands exactly one signal to the debounced
deploy, one debounce signal produces exactly one firing, that firing's
`performDeploy` call begins an attempt and clears `pendingDeploy`, and
completing that follow-up attempt schedules no further follow-up. -/
theorem coalescing_exactly_one_followup (verbose : Bool) (s : SchedState)
    (k D T : Nat) (ok ok2 : Bool) (dur dur2 now now2 : Nat)
    (hdep : s.isDeploying = true) (hk : 1 ≤ k) :
    run verbose s (List.replicate k Ev.request) = { s with pendingDeploy := true } ∧
    beginsCount verbose s (List.replicate k Ev.request) = 0 ∧
    (performDeployComplete { s with pendingDeploy := true } ok dur now).2 =
      FollowUp.viaDebounce ∧
    debounceFires D [T] = [T + D] ∧
    begins verbose
      (performDeployComplete { s with pendingDeploy := true } ok dur now).1
      Ev.request = true ∧
    (step verbose
      (performDeployComplete { s with pendingDeploy := true } ok dur now).1
      Ev.request).pendingDeploy = false ∧
    (performDeployComplete
      (step verbose
        (performDeployComplete { s with pendingDeploy := true } ok dur now).1
        Ev.request) ok2 dur2 now2).2 = FollowUp.noFollowUp := by
  refine ⟨run_replicate_inflight verbose s k hdep hk,
    (requests_no_begin verbose _ s hdep
      (fun e he => List.eq_of_mem_replicate he)).1, ?_, rfl, ?_, ?_, ?_⟩
  · cases ok <;> simp [performDeployComplete]
  · cases ok <;> simp [begins, performDeployEntry, performDeployComplete]
  · cases ok <;> simp [step, performDeployEntry, performDeployComplete]
  · cases ok <;> cases ok2 <;>
      simp [step, performDeployEntry, performDeployComplete]

/-- Witness for C1 at `k = 3`, `D = 50`, a success after 5 ms at time 10,
and a follow-up failure after 7 ms at time 20. -/
theorem coalescing_exactly_one_followup_witness :
    run false sInFlight (List.replicate 3 Ev.request) =
      { sInFlight with pendingDeploy := true } ∧
    beginsCount false sInFlight (List.replicate 3 Ev.request) = 0 ∧
    (performDeployComplete { sInFlight with pendingDeploy := true } true 5 10).2 =
      FollowUp.viaDebounce ∧
    debounceFires 50 [100] = [100 + 50] ∧
    begins false
      (performDeployComplete { sInFlight with pendingDeploy := true } true 5 10).1
      Ev.request = true ∧
    (step false
      (performDeployComplete { sInFlight with pendingDeploy := true } true 5 10).1
      Ev.request).pendingDeploy = false ∧
    (performDeployComplete
      (step false
        (performDeployComplete { sInFlight with pendingDeploy := true } true 5 10).1
        Ev.request) false 7 20).2 = FollowUp.noFollowUp :=
  coalescing_exactly_one_followup false sInFlight 3 50 100 true false 5 7 10 20
    rfl (by decide)

/-- C2 counterexample: on completion with `pendingDeploy` set, the `finally`
block calls `debouncedDeploy()` — the follow-up is dispatched *through* the
debounce (`FollowUp.viaDebounce`), so with `debounceMs = 50` a completion at
time 100 leads to the follow-up `performDeploy` call at time 150, not at
time 100: it does wait an additional `D` ms, contrary to the claim. -/
theorem followup_not_immediate_counterexample :
    (performDeployComplete { sInFlight with pendingDeploy := true } true 30 100).2 =
      FollowUp.viaDebounce ∧
    debounceFires 50 [100] = [150] ∧ (150 : Nat) ≠ 100 := by
  decide

/-- C2 amended: when a deploy attempt completes (success or failure) with
`pendingDeploy` set, the scheduler invokes the follow-up through
`debouncedDeploy()` — a debounce signal — so, absent further signals, the
follow-up `performDeploy` call fires `debounceMs` ms after the completion,
not immediately. -/
theorem followup_via_debounce (s : SchedState) (ok : Bool) (dur now D : Nat)
    (hp : s.pendingDeploy = true) :
    (performDeployComplete s ok dur now).2 = FollowUp.viaDebounce ∧
    debounceFires D [now] = [now + D] := by
  refine ⟨?_, rfl⟩
  cases ok <;> simp [performDeployComplete, hp]

/-- Witness for the amended C2: a successful completion at time 100 with
`pendingDeploy` set and `debounceMs = 50`. -/
theorem followup_via_debounce_witness :
    (performDeployComplete { sInFlight with pendingDeploy := true } true 30 100).2 =
      FollowUp.viaDebounce ∧
    debounceFires 50 [100] = [100 + 50] :=
  followup_via_debounce { sInFlight with pendingDeploy := true } true 30 100 50 rfl

/-- C3: a Deployer failure during an in-flight attempt is absorbed by the
`catch` block — modelled by `performDeployComplete` being a total function on
the failure outcome: `stats.failed` increments by exactly 1,
`stats.successful` is unchanged, `stats.totalTime` grows by the attempt's
duration, `isDeploying` is cleared, and a subsequent trigger begins the next
attempt normally, with the next attempt number. -/
theorem failure_resilience (verbose : Bool) (s : SchedState) (dur now : Nat)
    (hdep : s.isDeploying = true) :
    (performDeployComplete s false dur now).1.failed = s.failed + 1 ∧
    (performDeployComplete s false dur now).1.successful = s.successful ∧
    (performDeployComplete s false dur now).1.totalTime = s.totalTime + dur ∧
    (performDeployComplete s false dur now).1.isDeploying = false ∧
    begins verbose (performDeployComplete s false dur now).1 Ev.request = true ∧
    (step verbose (performDeployComplete s false dur now).1
      Ev.request).deploymentCount = s.deploymentCount + 1 ∧
    (step verbose (performDeployComplete s false dur now).1
      Ev.request).isDeploying = true := by
  simp [performDeployComplete, begins, step, performDeployEntry, formatDeployStart]

/-- Witness for C3: attempt #1 fails after 42 ms at time 100. -/
theorem failure_resilience_witness :
    (performDeployComplete sInFlight false 42 100).1.failed = sInFlight.failed + 1 ∧
    (performDeployComplete sInFlight false 42 100).1.successful = sInFlight.successful ∧
    (performDeployComplete sInFlight false 42 100).1.totalTime =
      sInFlight.totalTime + 42 ∧
    (performDeployComplete sInFlight false 42 100).1.isDeploying = false ∧
    begins false (performDeployComplete sInFlight false 42 100).1 Ev.request = true ∧
    (step false (performDeployComplete sInFlight false 42 100).1
      Ev.request).deploymentCount = sInFlight.deploymentCount + 1 ∧
    (step false (performDeployComplete sInFlight false 42 100).1
      Ev.request).isDeploying = true :=
  failure_resilience false sInFlight 42 100 rfl

/-- C4: no two deploy attempts overlap: a `performDeploy` call begins an
attempt iff no attempt is in flight; after any request event an attempt is in
flight; and while an attempt is in flight, any interleaving of trigger events
processed by the single-threaded loop begins zero attempts and leaves the
attempt in flight (only the in-flight attempt's completion clears
`isDeploying`). -/
theorem no_concurrent_attempts (verbose : Bool) (s s0 : SchedState)
    (evs : List Ev) (hdep : s0.isDeploying = true)
    (hreq : ∀ e ∈ evs, e = Ev.request) :
    (begins verbose s Ev.request = true ↔ s.isDeploying = false) ∧
    (step verbose s Ev.request).isDeploying = true ∧
    beginsCount verbose s0 evs = 0 ∧
    (run verbose s0 evs).isDeploying = true := by
  refine ⟨?_, ?_, (requests_no_begin verbose evs s0 hdep hreq).1,
    (requests_no_begin verbose evs s0 hdep hreq).2⟩
  · cases h : s.isDeploying <;> simp [begins, performDeployEntry, h]
  · cases h : s.isDeploying <;> simp [step, performDeployEntry, h]

/-- Witness for C4: two triggers while attempt #1 is in flight. -/
theorem no_concurrent_attempts_witness :
    (begins false initState Ev.request = true ↔ initState.isDeploying = false) ∧
    (step false initState Ev.request).isDeploying = true ∧
    beginsCount false sInFlight [Ev.request, Ev.request] = 0 ∧
    (run false sInFlight [Ev.request, Ev.request]).isDeploying = true :=
  no_concurrent_attempts false initState sInFlight [Ev.request, Ev.request]
    rfl (by decide)

/-- C5 counterexample: with a deploy in flight, the `change` handler *does*
emit the file-change notification in non-verbose mode (the claim says it is
suppressed there), and suppresses it in verbose mode (the claim says verbose
always shows it): the code's suppression condition (watch.ts line 203) is
`isDeploying && verbose`, not `isDeploying && !verbose`. -/
theorem change_notify_counterexample :
    changeEmitsNotification "src/index.ts" true false = true ∧
    changeEmitsNotification "src/index.ts" true true = false := by
  decide

/-- C5 amended: for every change event on a watched path (one not containing
`.wrangler`), a file-change notification is emitted, except that it is
suppressed in *verbose* mode while a deploy is already in flight; in
non-verbose mode the notification is always shown, whether or not a deploy
is in flight. -/
theorem change_notify (p : String) (d v : Bool)
    (hw : strIncludes p ".wrangler" = false) :
    changeEmitsNotification p d v = !(d && v) := by
  simp only [changeEmitsNotification, hw, Bool.false_eq_true, if_false]
  cases d <;> cases v <;> rfl

/-- Witness for the amended C5: a change to `src/index.ts` during a deploy
in verbose mode. -/
theorem change_notify_witness :
    changeEmitsNotification "src/index.ts" true true = !(true && true) :=
  change_notify "src/index.ts" true true (by decide)

/-- C6: the debounce contract: signals at `t`, `t+5`, `t+10` with `D = 50`
produce exactly one firing, at `t+10+50`; a signal arriving before a pending
firing cancels it and schedules a new firing `D` ms after itself (the fire
list is that of the later signals alone); and the wrapped action never runs
synchronously inside `signal()`: every firing occurs exactly `D` ms after
the signal that scheduled it. -/
theorem debounce_contract (t D t1 t2 : Nat) (rest ts : List Nat) (f : Nat)
    (hcancel : t2 < t1 + D) (hf : f ∈ debounceFires D ts) :
    debounceFires 50 [t, t + 5, t + 10] = [t + 10 + 50] ∧
    debounceFires D (t1 :: t2 :: rest) = debounceFires D (t2 :: rest) ∧
    ∃ s ∈ ts, f = s + D := by
  refine ⟨?_, ?_, debounceFires_mem D ts f hf⟩
  · have h1 : t + 5 < t + 50 := by omega
    have h2 : t + 10 < t + 5 + 50 := by omega
    simp [debounceFires, h1, h2]
  · rw [debounceFires, if_pos hcancel]

/-- Witness for C6 at `t = 0`: three rapid signals, one cancellation, and a
firing scheduled by the signal at time 7. -/
theorem debounce_contract_witness :
    debounceFires 50 [0, 0 + 5, 0 + 10] = [0 + 10 + 50] ∧
    debounceFires 50 [0, 5] = debounceFires 50 [5] ∧
    ∃ s ∈ [7], 57 = s + 50 :=
  debounce_contract 0 50 0 5 [] [7] 57 (by decide) (by decide)

/-- C7: preview-URL construction: the documented example produces
`https://982b47f4-my-worker.acct.workers.dev/`; any URL that parses to a
hostname with fewer than 3 dot-separated segments produces no preview URL
(`none`, not an error); and an unparseable URL also produces `none` —
`constructVersionUrl` is a total function and never throws. -/
theorem version_url (m v2 : String) (u : ParsedUrl)
    (hm : parseUrl m = some u)
    (hshort : (splitChar u.hostname '.').length < 3) :
    constructVersionUrl "https://my-worker.acct.workers.dev/"
        "982b47f4-5d2d-471b-a084-508acc7a2bc4" =
      some "https://982b47f4-my-worker.acct.workers.dev/" ∧
    constructVersionUrl m v2 = none ∧
    constructVersionUrl "not a url" "982b47f4-5d2d" = none := by
  refine ⟨by decide, ?_, by decide⟩
  simp only [constructVersionUrl, hm]
  rw [if_neg]
  rintro ⟨h3, -⟩
  omega

/-- Witness for C7: `https://a.b/x` has a 2-segment hostname, so no preview
URL is produced. -/
theorem version_url_witness :
    constructVersionUrl "https://my-worker.acct.workers.dev/"
        "982b47f4-5d2d-471b-a084-508acc7a2bc4" =
      some "https://982b47f4-my-worker.acct.workers.dev/" ∧
    constructVersionUrl "https://a.b/x" "v1-2" = none ∧
    constructVersionUrl "not a url" "982b47f4-5d2d" = none :=
  version_url "https://a.b/x" "v1-2" { hostname := "a.b", pathname := "/x" }
    (by decide) (by decide)

/-- C8: stats arithmetic: after a session of attempts with `a` successes
totaling `Ta` ms and `b` failures totaling `Tb` ms, `stats.successful = a`,
`stats.failed = b`, `stats.totalTime = Ta + Tb`, and the average time
`formatStats` displays is `(Ta+Tb)/(a+b)/1000` seconds rendered to one
decimal place. -/
theorem stats_arithmetic (verbose : Bool) (outcomes : List (Bool × Nat))
    (hne : outcomes ≠ []) :
    (runSession verbose initState outcomes).successful = succCount outcomes ∧
    (runSession verbose initState outcomes).failed = failCount outcomes ∧
    (runSession verbose initState outcomes).totalTime =
      succTime outcomes + failTime outcomes ∧
    formatStatsAvg (runSession verbose initState outcomes).successful
        (runSession verbose initState outcomes).failed
        (runSession verbose initState outcomes).totalTime =
      toFixed1 (((succTime outcomes + failTime outcomes : Nat) : ℚ) /
        ((succCount outcomes + failCount outcomes : Nat) : ℚ) / 1000) := by
  have h := runSession_stats verbose outcomes initState rfl
  have hs : (runSession verbose initState outcomes).successful = succCount outcomes := by
    simpa [initState] using h.1
  have hf : (runSession verbose initState outcomes).failed = failCount outcomes := by
    simpa [initState] using h.2.1
  have ht : (runSession verbose initState outcomes).totalTime =
      succTime outcomes + failTime outcomes := by
    simpa [initState] using h.2.2.1
  refine ⟨hs, hf, ht, ?_⟩
  have htot : 0 < succCount outcomes + failCount outcomes := by
    rw [succCount_add_failCount]
    cases outcomes with
    | nil => exact absurd rfl hne
    | cons o rest => simp
  rw [formatStatsAvg, hs, hf, ht, if_pos htot]

/-- Witness for C8: one success of 1000 ms and one failure of 500 ms. -/
theorem stats_arithmetic_witness :
    (runSession false initState [(true, 1000), (false, 500)]).successful =
      succCount [(true, 1000), (false, 500)] ∧
    (runSession false initState [(true, 1000), (false, 500)]).failed =
      failCount [(true, 1000), (false, 500)] ∧
    (runSession false initState [(true, 1000), (false, 500)]).totalTime =
      succTime [(true, 1000), (false, 500)] + failTime [(true, 1000), (false, 500)] ∧
    formatStatsAvg (runSession false initState [(true, 1000), (false, 500)]).successful
        (runSession false initState [(true, 1000), (false, 500)]).failed
        (runSession false initState [(true, 1000), (false, 500)]).totalTime =
      toFixed1 (((succTime [(true, 1000), (false, 500)] +
          failTime [(true, 1000), (false, 500)] : Nat) : ℚ) /
        ((succCount [(true, 1000), (false, 500)] +
          failCount [(true, 1000), (false, 500)] : Nat) : ℚ) / 1000) :=
  stats_arithmetic false [(true, 1000), (false, 500)] (by decide)

/-- C9: the deployment counter starts at 0; `formatDeployStart` increments it
by exactly 1 in both verbose and condensed mode; a step adds exactly 1 to the
counter when it begins an attempt and 0 otherwise; hence after any run from
session start the counter equals the number of attempts that began, in the
order attempts actually execute. -/
theorem counter_monotonic (verbose v2 : Bool) (c : Nat) (s : SchedState)
    (e : Ev) (evs : List Ev) :
    initState.deploymentCount = 0 ∧
    formatDeployStart v2 c = c + 1 ∧
    (step verbose s e).deploymentCount =
      s.deploymentCount + (if begins verbose s e = true then 1 else 0) ∧
    (run verbose initState evs).deploymentCount = beginsCount verbose initState evs := by
  refine ⟨rfl, rfl, step_count verbose s e, ?_⟩
  simpa [initState] using run_deploymentCount verbose evs initState

/-- C10: `setCachedAccountId` reads the existing cache, sets only
`accountId`, and writes the result back: every other key is unchanged and
`accountId` maps to the new id; a missing cache file and an unparseable one
both behave as the empty cache. -/
theorem cache_frame (file : Option (Option CacheData)) (id k : String)
    (hk : k ≠ "accountId") :
    setCachedAccountId file id k = readCache file k ∧
    setCachedAccountId file id "accountId" = some id ∧
    readCache none = emptyCache ∧
    readCache (some none) = emptyCache := by
  refine ⟨?_, ?_, rfl, rfl⟩
  · simp [setCachedAccountId, setKey, hk]
  · simp [setCachedAccountId, setKey]

/-- Witness for C10: a cache holding `other ↦ x` keeps that entry after
`setCachedAccountId`. -/
theorem cache_frame_witness :
    setCachedAccountId (some (some (setKey emptyCache "other" "x"))) "acct-1" "other" =
      readCache (some (some (setKey emptyCache "other" "x"))) "other" ∧
    readCache (some (some (setKey emptyCache "other" "x"))) "other" = some "x" :=
  ⟨(cache_frame (some (some (setKey emptyCache "other" "x"))) "acct-1" "other"
      (by decide)).1,
   by decide⟩

end Wrongler
